import Mathlib

/-!
Verification of the core of the TSL Expense Tracker (utils.py, class
ExpenseAnalyzer) against its natural-language specification.

The development shallowly embeds the record store, the query engine
(analyze), the cascading filter-domain computation (update_combos), the
aggregator, the load pipeline (load_file) and the add/delete record
operations.  Python floats are modelled as rationals (no claim here
depends on float rounding), pandas Timestamps as calendar-date triples,
and NaN/NaT cells as Option values.  The pattern argument of
pandas str.contains is treated as a literal substring: the patterns the
application feeds it are dropdown values and typed search text, and every
claim below is settled on metacharacter-free patterns.
-/

namespace TSL

/-- Calendar date (year, month, day), modelling a pandas Timestamp.
Comparison is lexicographic, which is chronological order for valid
dates. -/
structure Date where
  y : Nat
  m : Nat
  d : Nat
deriving DecidableEq, Repr

/-- Chronological (lexicographic) order on dates, as a Boolean test. -/
def Date.leb (a b : Date) : Bool :=
  if a.y ≠ b.y then a.y < b.y
  else if a.m ≠ b.m then a.m < b.m
  else a.d ≤ b.d

/-- One row of the loaded DataFrame after normalization.  The field
label models the pandas index label of the row; origIdx models the
original_index column (the stable id displayed in the hidden ID column
of the raw-data table).  NaT dates are modelled as none. -/
structure Rec where
  label : Nat
  origIdx : Nat
  reportName : String
  date : Option Date
  expAmt : Rat
  incAmt : Rat
  descr : String
  category : String
  merchant : String
  paid : String
deriving DecidableEq, Repr

/-- Addition of rationals through mkRat.  The operations Rat.add and
Rat.sub of the library are marked irreducible, so the embedding uses
these kernel-reducible equivalents (see qadd_eq and qsub_eq). -/
def qadd (a b : Rat) : Rat := mkRat (a.num * b.den + b.num * a.den) (a.den * b.den)

/-- Subtraction of rationals through mkRat. -/
def qsub (a b : Rat) : Rat := mkRat (a.num * b.den - b.num * a.den) (a.den * b.den)

/-- Negation of a rational through mkRat. -/
def qneg (a : Rat) : Rat := mkRat (-a.num) a.den

/-- qadd agrees with rational addition. -/
theorem qadd_eq (a b : Rat) : qadd a b = a + b := (Rat.add_def' a b).symm

/-- qsub agrees with rational subtraction. -/
theorem qsub_eq (a b : Rat) : qsub a b = a - b := (Rat.sub_def' a b).symm

/-- Boolean prefix test on lists of character codes. -/
def isPrefixL : List Nat → List Nat → Bool
  | [], _ => true
  | _ :: _, [] => false
  | a :: as, b :: bs => a = b && isPrefixL as bs

/-- Boolean infix (contiguous-substring) test on lists of character
codes. -/
def isInfixL (p : List Nat) : List Nat → Bool
  | [] => isPrefixL p []
  | l@(_ :: t) => isPrefixL p l || isInfixL p t

/-- ASCII lower-casing of a single character code. -/
def lowerCode (n : Nat) : Nat :=
  if 65 ≤ n ∧ n ≤ 90 then n + 32 else n

/-- A string as its list of lower-cased character codes. -/
def lowerCodes (s : String) : List Nat :=
  s.toList.map (fun c => lowerCode c.toNat)

/-- Case-insensitive substring containment, modelling the pandas
operation s.str.contains(pat, case=False, na=False) on a string cell
for a metacharacter-free pattern. -/
def containsCI (hay pat : String) : Bool :=
  isInfixL (lowerCodes pat) (lowerCodes hay)

/-- The four purely categorical filter keys that both the Filter Domain
Calculator (update_combos) and the Query Engine (analyze) handle. -/
inductive CatKey where
  | report
  | category
  | merchant
  | paid
deriving DecidableEq, Repr

/-- Field of a record addressed by a categorical filter key. -/
def Rec.field (r : Rec) : CatKey → String
  | .report => r.reportName
  | .category => r.category
  | .merchant => r.merchant
  | .paid => r.paid

/-- Single-field narrowing predicate of update_combos: the source
narrows with an exact equality comparison, e.g.
d[d['Report Name'] == val]. -/
def narrowPredB (k : CatKey) (v : String) (r : Rec) : Bool :=
  r.field k = v

/-- Single-field predicate of analyze for the same keys: the source
filters with d['Report Name'].astype(str).str.contains(val, case=False,
na=False), i.e. case-insensitive substring containment. -/
def queryPredB (k : CatKey) (v : String) (r : Rec) : Bool :=
  containsCI (r.field k) v

/-- A record with report name "Food Report" used to separate the two
predicates. -/
def recFoodReport : Rec :=
  { label := 0, origIdx := 0, reportName := "Food Report", date := some ⟨2025, 12, 4⟩
    expAmt := 30, incAmt := 0, descr := "lunch", category := "Food"
    merchant := "Cafe", paid := "Cash" }

/-- Reflexivity of the Boolean prefix test. -/
theorem isPrefixL_refl (l : List Nat) : isPrefixL l l = true := by
  induction l with
  | nil => rfl
  | cons a as ih => simp [isPrefixL, ih]

/-- A list is an infix of itself. -/
theorem isInfixL_refl (l : List Nat) : isInfixL l l = true := by
  cases l with
  | nil => rfl
  | cons a as => simp [isInfixL, isPrefixL_refl]

/-- A string case-insensitively contains itself. -/
theorem containsCI_self (s : String) : containsCI s s = true := by
  simp [containsCI, isInfixL_refl]

/-- C1 (counterexample): the claim that update_combos and analyze apply
the same matching semantics for a categorical key fails.  For the key
report_name, the value "Food" and a record whose report name is
"Food Report", the narrowing predicate of update_combos (exact
equality) is false while the query predicate of analyze
(case-insensitive substring containment) is true. -/
theorem C1_narrow_query_differ :
    ¬ (narrowPredB CatKey.report "Food" recFoodReport
       = queryPredB CatKey.report "Food" recFoodReport) := by
  decide

/-- C1 (amended): for every categorical key and non-"All" value, the
single-field narrowing predicate of update_combos (exact equality)
implies the predicate analyze applies for the same key and value
(case-insensitive substring containment), but not conversely: the two
components do not share one matching semantics. -/
theorem C1_narrow_implies_query (k : CatKey) (v : String) (r : Rec)
    (_hv : v ≠ "All") (h : narrowPredB k v r = true) :
    queryPredB k v r = true := by
  unfold narrowPredB at h
  have heq : r.field k = v := by
    exact of_decide_eq_true h
  unfold queryPredB
  rw [heq]
  exact containsCI_self v

/-- C1 (witness): the amended implication instantiated at the key
report_name, the value "Food Report" and the record recFoodReport. -/
theorem C1_narrow_implies_query_witness :
    queryPredB CatKey.report "Food Report" recFoodReport = true :=
  C1_narrow_implies_query CatKey.report "Food Report" recFoodReport
    (by decide) (by decide)

/-! ## Query engine (ExpenseAnalyzer.analyze)

The filter state is the contents of self.filters plus the optional
advanced-filter entries (date_start, date_end, exp_min, exp_max,
inc_min, inc_max); a missing entry and an empty entry behave alike in
the source, so both are modelled as the empty string.  The year and
month dropdowns are read-only comboboxes whose offered values are
decimal numerals, so their selections are modelled already parsed, as
Option Nat (the source applies int() to the selected string). -/

/-- Filter specification: the abstract value of the filter widgets that
analyze and update_combos read.  For the four categorical fields and
for year/month the value "All" (here: none) means no constraint. -/
structure FilterSpec where
  report : String
  year : Option Nat
  month : Option Nat
  category : String
  merchant : String
  paid : String
  descr : String
  dateStart : String
  dateEnd : String
  expMin : String
  expMax : String
  incMin : String
  incMax : String
deriving DecidableEq, Repr

/-- The no-constraint filter specification (every dropdown on "All",
every text entry empty). -/
def FilterSpec.all : FilterSpec :=
  ⟨"All", none, none, "All", "All", "All", "", "", "", "", "", "", ""⟩

/-- Space test on a character, for modelling str.strip(). -/
def isSpaceC (c : Char) : Bool := c = ' '

/-- Python str.strip() on a character list (whitespace modelled as the
plain space character). -/
def trimL (l : List Char) : List Char :=
  ((l.dropWhile isSpaceC).reverse.dropWhile isSpaceC).reverse

/-- Decimal-digit test on a character. -/
def isDigitC (c : Char) : Bool := 48 ≤ c.toNat ∧ c.toNat ≤ 57

/-- Value of a list of decimal digits. -/
def digitsToNat (l : List Char) : Nat :=
  l.foldl (fun a c => a * 10 + (c.toNat - 48)) 0

/-- Splitting a character list at a separator character. -/
def splitOnC (sep : Char) : List Char → List (List Char)
  | [] => [[]]
  | c :: rest =>
    let r := splitOnC sep rest
    if c = sep then [] :: r
    else
      match r with
      | [] => [[c]]
      | h :: t => (c :: h) :: t

/-- Parse a nonempty all-digit character list as a natural number. -/
def parseNatL (l : List Char) : Option Nat :=
  if l ≠ [] ∧ l.all isDigitC then some (digitsToNat l) else none

/-- Model of pd.to_datetime on a user-typed bound string: an
ISO-format YYYY-MM-DD date parses to its calendar date, any other
string is unparseable (the source call raises, which the surrounding
try/except turns into skipping).  Formats beyond ISO that pandas would
also accept are not needed by any claim and are not modelled. -/
def parseDateL (l : List Char) : Option Date :=
  match (splitOnC '-' l).map parseNatL with
  | [some y, some m, some d] =>
    if 1 ≤ m ∧ m ≤ 12 ∧ 1 ≤ d ∧ d ≤ 31 then some ⟨y, m, d⟩ else none
  | _ => none

/-- Model of Python float() on an unsigned plain decimal numeral
(digits with at most one dot, at least one digit).  Scientific
notation, inf and nan are not needed by any claim and are not
modelled. -/
def parseUnsigned (l : List Char) : Option Rat :=
  match splitOnC '.' l with
  | [ip] => if ip ≠ [] ∧ ip.all isDigitC then some (mkRat (digitsToNat ip) 1) else none
  | [ip, fp] =>
    if (ip ≠ [] ∨ fp ≠ []) ∧ ip.all isDigitC ∧ fp.all isDigitC then
      some (mkRat (digitsToNat ip * 10 ^ fp.length + digitsToNat fp) (10 ^ fp.length))
    else none
  | _ => none

/-- Model of Python float() including an optional leading sign. -/
def parseFloatL (l : List Char) : Option Rat :=
  match l with
  | '-' :: rest => (parseUnsigned rest).map qneg
  | _ => parseUnsigned l

/-- Model of the helper get_float of analyze: strip the entry, remove
commas; an empty entry is no bound (some none), a parseable numeral is
a bound (some (some x)), anything else raises ValueError (none), which
the surrounding try/except of analyze turns into skipping the rest of
the advanced-filter block. -/
def getFloat (s : String) : Option (Option Rat) :=
  let v := (trimL s.toList).filter (fun c => ¬ c = ',')
  if v = [] then some none else (parseFloatL v).map some

/-- Records with a non-null Expense Date, modelling
self.df.dropna(subset=['Expense Date']). -/
def dropNaDates (df : List Rec) : List Rec :=
  df.filter (fun r => r.date.isSome)

/-- The search pattern derived from the description entry:
stripped and lower-cased, as in analyze. -/
def descPat (fs : FilterSpec) : List Nat :=
  (trimL fs.descr.toList).map (fun c => lowerCode c.toNat)

/-- Conditional filter, modelling the pattern
if active: d = d[predicate] of analyze. -/
def filterIf (c : Bool) (p : Rec → Bool) (d : List Rec) : List Rec :=
  if c then d.filter p else d

/-- Optional-value filter, modelling the pattern
if key in sels: d = d[predicate(sels[key])] of analyze. -/
def filterOptA {α : Type} (o : Option α) (p : α → Rec → Bool) (d : List Rec) : List Rec :=
  match o with
  | some x => d.filter (p x)
  | none => d

/-- Categorical and text filters of analyze, applied in source order:
report, year, month, category, merchant, paid, description. -/
def catFilter (fs : FilterSpec) (d : List Rec) : List Rec :=
  let d := filterIf (fs.report ≠ "All") (fun r => containsCI r.reportName fs.report) d
  let d := filterOptA fs.year (fun y r => r.date.any (fun dt => dt.y = y)) d
  let d := filterOptA fs.month (fun m r => r.date.any (fun dt => dt.m = m)) d
  let d := filterIf (fs.category ≠ "All") (fun r => containsCI r.category fs.category) d
  let d := filterIf (fs.merchant ≠ "All") (fun r => containsCI r.merchant fs.merchant) d
  let d := filterIf (fs.paid ≠ "All") (fun r => containsCI r.paid fs.paid) d
  filterIf (descPat fs ≠ []) (fun r => isInfixL (descPat fs) (lowerCodes r.descr)) d

/-- Amount-range block of analyze.  The source evaluates all four
get_float calls before applying any amount filter, inside the one
try/except of the advanced-filter block, so a single unparseable
amount bound skips all four amount filters. -/
def amountPhase (fs : FilterSpec) (d : List Rec) : List Rec :=
  match getFloat fs.expMin, getFloat fs.expMax, getFloat fs.incMin, getFloat fs.incMax with
  | some em, some eM, some im, some iM =>
    let d := filterOptA em (fun x r => x ≤ r.expAmt) d
    let d := filterOptA eM (fun x r => r.expAmt ≤ x) d
    let d := filterOptA im (fun x r => x ≤ r.incAmt) d
    filterOptA iM (fun x r => r.incAmt ≤ x) d
  | _, _, _, _ => d

/-- Upper date bound of analyze; an unparseable bound raises inside
the shared try/except, skipping this bound and the amount block. -/
def dateEndPhase (fs : FilterSpec) (d : List Rec) : List Rec :=
  let e := trimL fs.dateEnd.toList
  if e = [] then amountPhase fs d
  else
    match parseDateL e with
    | none => d
    | some hi => amountPhase fs (d.filter (fun r => r.date.any (fun dt => Date.leb dt hi)))

/-- Advanced-filter block of analyze (date range then amount ranges);
an unparseable lower date bound raises inside the shared try/except,
skipping every range bound. -/
def rangePhase (fs : FilterSpec) (d : List Rec) : List Rec :=
  let s := trimL fs.dateStart.toList
  if s = [] then dateEndPhase fs d
  else
    match parseDateL s with
    | none => d
    | some lo => dateEndPhase fs (d.filter (fun r => r.date.any (fun dt => Date.leb lo dt)))

/-- Descending-by-date comparison used for the final sort, modelling
sort_values('Expense Date', ascending=False).  Rows reaching the sort
all carry a date; the none branches only totalize the function
(pandas places NaT last). -/
def Rec.dateGeb (a b : Rec) : Bool :=
  match a.date, b.date with
  | some x, some y => Date.leb y x
  | some _, none => true
  | none, _ => false

/-- Insertion step of the sort. -/
def insertDesc (r : Rec) : List Rec → List Rec
  | [] => [r]
  | x :: xs => if Rec.dateGeb r x then r :: x :: xs else x :: insertDesc r xs

/-- Sort by Expense Date descending.  The source delegates to pandas
sort_values with its default kind quicksort, whose ordering of
equal-date rows is not specified; the model fixes one admissible
(stable) order, and no claim settled in this file depends on the
relative order of equal-date rows. -/
def sortDesc : List Rec → List Rec
  | [] => []
  | x :: xs => insertDesc x (sortDesc xs)

/-- Rows surviving every filter of analyze, before the emptiness check,
the balance column and the sort. -/
def filteredRows (df : List Rec) (fs : FilterSpec) : List Rec :=
  rangePhase fs (catFilter fs (dropNaDates df))

/-- Result rows of analyze: survivors sorted by date descending, each
annotated with the derived balance Bal = Income Amount - Expense
Amount (the source adds the Bal column and then sorts; annotating
after sorting is the same row-wise operation). -/
def analyzeRows (df : List Rec) (fs : FilterSpec) : List (Rec × Rat) :=
  (sortDesc (filteredRows df fs)).map (fun r => (r, qsub r.incAmt r.expAmt))

/-- Sorting and balance annotation applied to an intermediate subset;
used to state which filters were in effect when a range bound was
skipped. -/
def withBal (d : List Rec) : List (Rec × Rat) :=
  (sortDesc d).map (fun r => (r, qsub r.incAmt r.expAmt))

/-! ## C4: malformed range bounds -/

/-- A record dated 2024-07-01 used for the range-bound claims. -/
def recJuly : Rec :=
  { label := 0, origIdx := 0, reportName := "Trip", date := some ⟨2024, 7, 1⟩
    expAmt := 10, incAmt := 0, descr := "taxi", category := "Travel"
    merchant := "Cab", paid := "Cash" }

/-- Filter spec whose only malformed entry is the lower date bound;
the upper date bound is present and well-formed. -/
def fsBadStart : FilterSpec :=
  { FilterSpec.all with dateStart := "garbage", dateEnd := "2024-06-01" }

/-- The same filter spec with the malformed lower date bound absent. -/
def fsNoStart : FilterSpec :=
  { FilterSpec.all with dateEnd := "2024-06-01" }

/-- C4 (counterexample): a filter spec with exactly one malformed range
bound (the date-range start) and every other filter well-formed does
not return the same result as the spec with that bound absent: with the
malformed start the well-formed end bound 2024-06-01 is also skipped
and the record dated 2024-07-01 is returned; with the start absent the
end bound excludes it. -/
theorem C4_skipped_bound_changes_result :
    analyzeRows [recJuly] fsBadStart ≠ analyzeRows [recJuly] fsNoStart := by
  decide

/-- C4 (amended): a malformed range bound never aborts the query, but
it is not only that bound that is treated as absent: every range bound
the engine had not yet applied when the parse failure occurred is
skipped with it.  A malformed date-range start skips the date-range
end and all four amount bounds, leaving only the categorical/text
filters applied; a malformed date-range end skips all four amount
bounds; a malformed amount bound skips all four amount bounds.
Filters already applied (categorical/text, and earlier date bounds)
remain in effect. -/
theorem C4_malformed_bound_skips_following (fs : FilterSpec) (df : List Rec) (d : List Rec) :
    (trimL fs.dateStart.toList ≠ [] → parseDateL (trimL fs.dateStart.toList) = none →
      analyzeRows df fs = withBal (catFilter fs (dropNaDates df)))
    ∧ (trimL fs.dateEnd.toList ≠ [] → parseDateL (trimL fs.dateEnd.toList) = none →
      dateEndPhase fs d = d)
    ∧ ((getFloat fs.expMin = none ∨ getFloat fs.expMax = none ∨
        getFloat fs.incMin = none ∨ getFloat fs.incMax = none) →
      amountPhase fs d = d) := by
  refine ⟨fun h1 h2 => ?_, fun h1 h2 => ?_, fun h => ?_⟩
  · simp only [analyzeRows, filteredRows, rangePhase, withBal]
    rw [if_neg (by simpa using h1), h2]
  · simp only [dateEndPhase]
    rw [if_neg (by simpa using h1), h2]
  · rcases h with h | h | h | h
    · simp [amountPhase, h]
    · cases hA : getFloat fs.expMin <;> simp [amountPhase, hA, h]
    · cases hA : getFloat fs.expMin <;> cases hB : getFloat fs.expMax <;>
        simp [amountPhase, hA, hB, h]
    · cases hA : getFloat fs.expMin <;> cases hB : getFloat fs.expMax <;>
        cases hC : getFloat fs.incMin <;> simp [amountPhase, hA, hB, hC, h]

/-- C4 (witness): the amended behavior at the concrete spec fsBadStart
(malformed date-range start): the result is the categorical phase
alone, with both date bounds and all amount bounds skipped. -/
theorem C4_malformed_bound_skips_following_witness :
    analyzeRows [recJuly] fsBadStart = withBal (catFilter fsBadStart (dropNaDates [recJuly])) :=
  (C4_malformed_bound_skips_following fsBadStart [recJuly] []).1 (by decide) (by decide)

/-! ## Structural lemmas on the filter pipeline -/

/-- Membership in a conditional filter. -/
theorem mem_filterIf {c : Bool} {p : Rec → Bool} {d : List Rec} {r : Rec}
    (h : r ∈ filterIf c p d) : r ∈ d ∧ (c = true → p r = true) := by
  cases c with
  | false =>
    simp only [filterIf, if_neg] at h
    exact ⟨h, by simp⟩
  | true =>
    simp only [filterIf, if_pos] at h
    have hm := List.mem_filter.mp h
    exact ⟨hm.1, fun _ => hm.2⟩

/-- Membership in an optional-value filter. -/
theorem mem_filterOptA {α : Type} {o : Option α} {p : α → Rec → Bool} {d : List Rec} {r : Rec}
    (h : r ∈ filterOptA o p d) : r ∈ d ∧ ∀ x, o = some x → p x r = true := by
  cases o with
  | none => exact ⟨h, by simp⟩
  | some x =>
    have hm := List.mem_filter.mp h
    refine ⟨hm.1, fun y hy => ?_⟩
    cases hy
    exact hm.2

/-- Length bound for a conditional filter. -/
theorem length_filterIf_le (c : Bool) (p : Rec → Bool) (d : List Rec) :
    (filterIf c p d).length ≤ d.length := by
  cases c <;> simp [filterIf, List.length_filter_le]

/-- Length bound for an optional-value filter. -/
theorem length_filterOptA_le {α : Type} (o : Option α) (p : α → Rec → Bool) (d : List Rec) :
    (filterOptA o p d).length ≤ d.length := by
  cases o <;> simp [filterOptA, List.length_filter_le]

/-- Inserting into the sorted list adds one element. -/
theorem length_insertDesc (r : Rec) (l : List Rec) :
    (insertDesc r l).length = l.length + 1 := by
  induction l with
  | nil => rfl
  | cons x xs ih =>
    simp only [insertDesc]
    split <;> simp [ih]

/-- The sort preserves length. -/
theorem length_sortDesc (l : List Rec) : (sortDesc l).length = l.length := by
  induction l with
  | nil => rfl
  | cons x xs ih => simp [sortDesc, length_insertDesc, ih]

/-- Membership in an insertion. -/
theorem mem_insertDesc {x r : Rec} {l : List Rec} :
    x ∈ insertDesc r l ↔ x = r ∨ x ∈ l := by
  induction l with
  | nil => simp [insertDesc]
  | cons y ys ih =>
    simp only [insertDesc]
    split
    · simp
    · simp only [List.mem_cons, ih]
      tauto

/-- The sort preserves membership. -/
theorem mem_sortDesc {x : Rec} {l : List Rec} : x ∈ sortDesc l ↔ x ∈ l := by
  induction l with
  | nil => simp [sortDesc]
  | cons y ys ih => simp [sortDesc, mem_insertDesc, ih]

/-- Length bound for the categorical phase. -/
theorem length_catFilter_le (fs : FilterSpec) (d : List Rec) :
    (catFilter fs d).length ≤ d.length := by
  simp only [catFilter]
  refine le_trans (length_filterIf_le _ _ _) ?_
  refine le_trans (length_filterIf_le _ _ _) ?_
  refine le_trans (length_filterIf_le _ _ _) ?_
  refine le_trans (length_filterIf_le _ _ _) ?_
  refine le_trans (length_filterOptA_le _ _ _) ?_
  refine le_trans (length_filterOptA_le _ _ _) ?_
  exact length_filterIf_le _ _ _

/-- Length bound for the amount phase. -/
theorem length_amountPhase_le (fs : FilterSpec) (d : List Rec) :
    (amountPhase fs d).length ≤ d.length := by
  simp only [amountPhase]
  split
  · refine le_trans (length_filterOptA_le _ _ _) ?_
    refine le_trans (length_filterOptA_le _ _ _) ?_
    refine le_trans (length_filterOptA_le _ _ _) ?_
    exact length_filterOptA_le _ _ _
  · exact le_refl _

/-- Length bound for the upper-date phase. -/
theorem length_dateEndPhase_le (fs : FilterSpec) (d : List Rec) :
    (dateEndPhase fs d).length ≤ d.length := by
  simp only [dateEndPhase]
  split
  · exact length_amountPhase_le _ _
  · split
    · exact le_refl _
    · exact le_trans (length_amountPhase_le _ _) (List.length_filter_le _ _)

/-- Length bound for the whole range phase. -/
theorem length_rangePhase_le (fs : FilterSpec) (d : List Rec) :
    (rangePhase fs d).length ≤ d.length := by
  simp only [rangePhase]
  split
  · exact length_dateEndPhase_le _ _
  · split
    · exact le_refl _
    · exact le_trans (length_dateEndPhase_le _ _) (List.length_filter_le _ _)

/-! ## C6: soundness of the query result

The predicates below state, following the specification of the query
contract (section 4.2 of the spec), what it means for a record to
satisfy every active filter of a filter spec: an absent filter ("All",
none, empty, or a bound the spec says is treated as absent because it
does not parse) constrains nothing. -/

/-- Year/month clause of the specification: exact match on the
component extracted from the expense date. -/
def ymSat (o : Option Nat) (get : Date → Nat) (r : Rec) : Bool :=
  match o with
  | some y => r.date.any (fun dt => get dt = y)
  | none => true

/-- Lower amount-bound clause of the specification. -/
def loSat (o : Option (Option Rat)) (get : Rec → Rat) (r : Rec) : Bool :=
  match o with
  | some (some x) => x ≤ get r
  | _ => true

/-- Upper amount-bound clause of the specification. -/
def hiSat (o : Option (Option Rat)) (get : Rec → Rat) (r : Rec) : Bool :=
  match o with
  | some (some x) => get r ≤ x
  | _ => true

/-- Lower date-bound clause of the specification (inclusive); a bound
that does not parse is treated as absent. -/
def startSat (fs : FilterSpec) (r : Rec) : Bool :=
  match parseDateL (trimL fs.dateStart.toList) with
  | some lo => r.date.any (fun dt => Date.leb lo dt)
  | none => true

/-- Upper date-bound clause of the specification (inclusive). -/
def endSat (fs : FilterSpec) (r : Rec) : Bool :=
  match parseDateL (trimL fs.dateEnd.toList) with
  | some hi => r.date.any (fun dt => Date.leb dt hi)
  | none => true

/-- Categorical/text clauses of the specification, with the per-field
semantics the engine documents (case-insensitive substring containment
for the four dropdown fields and the description search). -/
def catSat (fs : FilterSpec) (r : Rec) : Bool :=
  ((fs.report = "All") || containsCI r.reportName fs.report)
  && ymSat fs.year (fun dt => dt.y) r
  && ymSat fs.month (fun dt => dt.m) r
  && ((fs.category = "All") || containsCI r.category fs.category)
  && ((fs.merchant = "All") || containsCI r.merchant fs.merchant)
  && ((fs.paid = "All") || containsCI r.paid fs.paid)
  && (decide (descPat fs = []) || isInfixL (descPat fs) (lowerCodes r.descr))

/-- A record satisfies every active predicate of a filter spec. -/
def activeSat (fs : FilterSpec) (r : Rec) : Bool :=
  catSat fs r && startSat fs r && endSat fs r
  && loSat (getFloat fs.expMin) Rec.expAmt r
  && hiSat (getFloat fs.expMax) Rec.expAmt r
  && loSat (getFloat fs.incMin) Rec.incAmt r
  && hiSat (getFloat fs.incMax) Rec.incAmt r

/-- A filter spec whose range bounds are each absent or parseable (no
bound raises inside the advanced-filter block). -/
def WellFormedBounds (fs : FilterSpec) : Prop :=
  (trimL fs.dateStart.toList = [] ∨ (parseDateL (trimL fs.dateStart.toList)).isSome = true)
  ∧ (trimL fs.dateEnd.toList = [] ∨ (parseDateL (trimL fs.dateEnd.toList)).isSome = true)
  ∧ getFloat fs.expMin ≠ none ∧ getFloat fs.expMax ≠ none
  ∧ getFloat fs.incMin ≠ none ∧ getFloat fs.incMax ≠ none

/-- Records surviving the categorical phase satisfy its clauses. -/
theorem mem_catFilter {fs : FilterSpec} {d : List Rec} {r : Rec}
    (h : r ∈ catFilter fs d) : r ∈ d ∧ catSat fs r = true := by
  simp only [catFilter] at h
  obtain ⟨h, h7⟩ := mem_filterIf h
  obtain ⟨h, h6⟩ := mem_filterIf h
  obtain ⟨h, h5⟩ := mem_filterIf h
  obtain ⟨h, h4⟩ := mem_filterIf h
  obtain ⟨h, h3⟩ := mem_filterOptA h
  obtain ⟨h, h2⟩ := mem_filterOptA h
  obtain ⟨h, h1⟩ := mem_filterIf h
  refine ⟨h, ?_⟩
  simp only [catSat, Bool.and_eq_true, Bool.or_eq_true, decide_eq_true_eq]
  refine ⟨⟨⟨⟨⟨⟨?_, ?_⟩, ?_⟩, ?_⟩, ?_⟩, ?_⟩, ?_⟩
  · by_cases hr : fs.report = "All"
    · exact Or.inl (by simpa using hr)
    · exact Or.inr (h1 (decide_eq_true hr))
  · cases hy : fs.year with
    | none => simp [ymSat]
    | some y => simpa [ymSat] using h2 y hy
  · cases hm : fs.month with
    | none => simp [ymSat]
    | some m => simpa [ymSat] using h3 m hm
  · by_cases hr : fs.category = "All"
    · exact Or.inl (by simpa using hr)
    · exact Or.inr (h4 (decide_eq_true hr))
  · by_cases hr : fs.merchant = "All"
    · exact Or.inl (by simpa using hr)
    · exact Or.inr (h5 (decide_eq_true hr))
  · by_cases hr : fs.paid = "All"
    · exact Or.inl (by simpa using hr)
    · exact Or.inr (h6 (decide_eq_true hr))
  · by_cases hd : descPat fs = []
    · exact Or.inl hd
    · exact Or.inr (h7 (decide_eq_true hd))

/-- Records surviving the amount phase, when every amount bound is
well-formed, satisfy the four amount clauses. -/
theorem mem_amountPhase {fs : FilterSpec} {d : List Rec} {r : Rec}
    (hA : getFloat fs.expMin ≠ none) (hB : getFloat fs.expMax ≠ none)
    (hC : getFloat fs.incMin ≠ none) (hD : getFloat fs.incMax ≠ none)
    (h : r ∈ amountPhase fs d) :
    r ∈ d ∧ loSat (getFloat fs.expMin) Rec.expAmt r = true
      ∧ hiSat (getFloat fs.expMax) Rec.expAmt r = true
      ∧ loSat (getFloat fs.incMin) Rec.incAmt r = true
      ∧ hiSat (getFloat fs.incMax) Rec.incAmt r = true := by
  obtain ⟨em, hem⟩ := Option.ne_none_iff_exists'.mp hA
  obtain ⟨eM, heM⟩ := Option.ne_none_iff_exists'.mp hB
  obtain ⟨im, him⟩ := Option.ne_none_iff_exists'.mp hC
  obtain ⟨iM, hiM⟩ := Option.ne_none_iff_exists'.mp hD
  simp only [amountPhase, hem, heM, him, hiM] at h
  obtain ⟨h, p4⟩ := mem_filterOptA h
  obtain ⟨h, p3⟩ := mem_filterOptA h
  obtain ⟨h, p2⟩ := mem_filterOptA h
  obtain ⟨h, p1⟩ := mem_filterOptA h
  refine ⟨h, ?_, ?_, ?_, ?_⟩
  · rw [hem]; cases em with
    | none => rfl
    | some x => simpa [loSat] using p1 x rfl
  · rw [heM]; cases eM with
    | none => rfl
    | some x => simpa [hiSat] using p2 x rfl
  · rw [him]; cases im with
    | none => rfl
    | some x => simpa [loSat] using p3 x rfl
  · rw [hiM]; cases iM with
    | none => rfl
    | some x => simpa [hiSat] using p4 x rfl

/-- Records surviving the upper-date phase, with well-formed bounds,
satisfy the upper date clause and the amount clauses. -/
theorem mem_dateEndPhase {fs : FilterSpec} {d : List Rec} {r : Rec}
    (hwfE : trimL fs.dateEnd.toList = [] ∨ (parseDateL (trimL fs.dateEnd.toList)).isSome = true)
    (hA : getFloat fs.expMin ≠ none) (hB : getFloat fs.expMax ≠ none)
    (hC : getFloat fs.incMin ≠ none) (hD : getFloat fs.incMax ≠ none)
    (h : r ∈ dateEndPhase fs d) :
    r ∈ d ∧ endSat fs r = true
      ∧ loSat (getFloat fs.expMin) Rec.expAmt r = true
      ∧ hiSat (getFloat fs.expMax) Rec.expAmt r = true
      ∧ loSat (getFloat fs.incMin) Rec.incAmt r = true
      ∧ hiSat (getFloat fs.incMax) Rec.incAmt r = true := by
  simp only [dateEndPhase] at h
  by_cases he : trimL fs.dateEnd.toList = []
  · rw [if_pos he] at h
    obtain ⟨hm, s1, s2, s3, s4⟩ := mem_amountPhase hA hB hC hD h
    refine ⟨hm, ?_, s1, s2, s3, s4⟩
    unfold endSat
    rw [he]
    rfl
  · rw [if_neg he] at h
    have hs := hwfE.resolve_left he
    obtain ⟨hi, hhi⟩ := Option.isSome_iff_exists.mp hs
    rw [hhi] at h
    obtain ⟨hm, s1, s2, s3, s4⟩ := mem_amountPhase hA hB hC hD h
    have hf := List.mem_filter.mp hm
    refine ⟨hf.1, ?_, s1, s2, s3, s4⟩
    unfold endSat
    rw [hhi]
    exact hf.2

/-- Records surviving the whole range phase, with well-formed bounds,
satisfy every range clause. -/
theorem mem_rangePhase {fs : FilterSpec} {d : List Rec} {r : Rec}
    (hwfS : trimL fs.dateStart.toList = [] ∨ (parseDateL (trimL fs.dateStart.toList)).isSome = true)
    (hwfE : trimL fs.dateEnd.toList = [] ∨ (parseDateL (trimL fs.dateEnd.toList)).isSome = true)
    (hA : getFloat fs.expMin ≠ none) (hB : getFloat fs.expMax ≠ none)
    (hC : getFloat fs.incMin ≠ none) (hD : getFloat fs.incMax ≠ none)
    (h : r ∈ rangePhase fs d) :
    r ∈ d ∧ startSat fs r = true ∧ endSat fs r = true
      ∧ loSat (getFloat fs.expMin) Rec.expAmt r = true
      ∧ hiSat (getFloat fs.expMax) Rec.expAmt r = true
      ∧ loSat (getFloat fs.incMin) Rec.incAmt r = true
      ∧ hiSat (getFloat fs.incMax) Rec.incAmt r = true := by
  simp only [rangePhase] at h
  by_cases hst : trimL fs.dateStart.toList = []
  · rw [if_pos hst] at h
    obtain ⟨hm, s0, s1, s2, s3, s4⟩ := mem_dateEndPhase hwfE hA hB hC hD h
    refine ⟨hm, ?_, s0, s1, s2, s3, s4⟩
    unfold startSat
    rw [hst]
    rfl
  · rw [if_neg hst] at h
    have hs := hwfS.resolve_left hst
    obtain ⟨lo, hlo⟩ := Option.isSome_iff_exists.mp hs
    rw [hlo] at h
    obtain ⟨hm, s0, s1, s2, s3, s4⟩ := mem_dateEndPhase hwfE hA hB hC hD h
    have hf := List.mem_filter.mp hm
    refine ⟨hf.1, ?_, s0, s1, s2, s3, s4⟩
    unfold startSat
    rw [hlo]
    exact hf.2

/-- Records in the filtered subset satisfy every active predicate. -/
theorem mem_filteredRows {df : List Rec} {fs : FilterSpec} {r : Rec}
    (hwf : WellFormedBounds fs) (h : r ∈ filteredRows df fs) :
    r ∈ df ∧ r.date.isSome = true ∧ activeSat fs r = true := by
  obtain ⟨hwfS, hwfE, hA, hB, hC, hD⟩ := hwf
  simp only [filteredRows] at h
  obtain ⟨hm, s0, s1, s2, s3, s4, s5⟩ := mem_rangePhase hwfS hwfE hA hB hC hD h
  obtain ⟨hm, hcat⟩ := mem_catFilter hm
  have hd := List.mem_filter.mp hm
  refine ⟨hd.1, hd.2, ?_⟩
  simp only [activeSat, Bool.and_eq_true]
  exact ⟨⟨⟨⟨⟨⟨hcat, s0⟩, s1⟩, s2⟩, s3⟩, s4⟩, s5⟩

/-- A record dated 2025-01-15 used for the query-soundness claims. -/
def recJan : Rec :=
  { label := 0, origIdx := 0, reportName := "Books", date := some ⟨2025, 1, 15⟩
    expAmt := 20, incAmt := 0, descr := "novel", category := "Leisure"
    merchant := "Shop", paid := "Card" }

/-- Filter spec with a malformed lower date bound and a well-formed
(hence active) upper date bound 2024-12-31. -/
def fsBadStart2 : FilterSpec :=
  { FilterSpec.all with dateStart := "not-a-date", dateEnd := "2024-12-31" }

/-- C6 (counterexample): the claim quantifies over every filter_spec,
but when a spec carries a malformed lower date bound together with an
active, well-formed upper date bound, the query returns the record
dated 2025-01-15 even though it violates the active upper bound
2024-12-31 — the returned record does not satisfy every active
predicate of the spec. -/
theorem C6_returned_record_violates_active_bound :
    ¬ (∀ p ∈ analyzeRows [recJan] fsBadStart2, activeSat fsBadStart2 p.1 = true) := by
  decide

/-- C6 (amended): for every store and every filter_spec whose range
bounds are each absent or well-formed, the query result contains at
most as many rows as the store, and every returned record has a
non-null expense_date, satisfies every active predicate of the spec
(categorical/text filters ANDed with the date-range and amount-range
filters), and is annotated with balance = income_amount -
expense_amount. -/
theorem C6_query_sound (df : List Rec) (fs : FilterSpec) (hwf : WellFormedBounds fs) :
    (analyzeRows df fs).length ≤ df.length
    ∧ ∀ p ∈ analyzeRows df fs,
        p.1.date.isSome = true ∧ activeSat fs p.1 = true
        ∧ p.2 = p.1.incAmt - p.1.expAmt := by
  constructor
  · simp only [analyzeRows, List.length_map, length_sortDesc, filteredRows, dropNaDates]
    exact le_trans (length_rangePhase_le _ _)
      (le_trans (length_catFilter_le _ _) (List.length_filter_le _ _))
  · intro p hp
    simp only [analyzeRows, List.mem_map] at hp
    obtain ⟨r, hr, rfl⟩ := hp
    have hrm := mem_sortDesc.mp hr
    obtain ⟨_, hdate, hsat⟩ := mem_filteredRows hwf hrm
    exact ⟨hdate, hsat, qsub_eq _ _⟩

/-- Filter spec with a well-formed lower date bound and a well-formed
lower expense bound, used to witness the soundness theorem. -/
def fsWF : FilterSpec :=
  { FilterSpec.all with dateStart := "2024-01-01", expMin := "5" }

/-- C6 (witness): the soundness theorem instantiated at the two-record
store and the well-formed spec fsWF. -/
theorem C6_query_sound_witness :
    (analyzeRows [recJan, recJuly] fsWF).length ≤ ([recJan, recJuly] : List Rec).length
    ∧ ∀ p ∈ analyzeRows [recJan, recJuly] fsWF,
        p.1.date.isSome = true ∧ activeSat fsWF p.1 = true
        ∧ p.2 = p.1.incAmt - p.1.expAmt :=
  C6_query_sound [recJan, recJuly] fsWF (by unfold WellFormedBounds; decide)

/-! ## Aggregator (summary tree and totals of analyze) -/

/-- Grouping key of the summary: (Expense Category, Merchant Name). -/
def recKey (r : Rec) : String × String := (r.category, r.merchant)

/-- First-occurrence deduplication with an accumulator of keys already
seen (structural recursion, so it evaluates in the kernel). -/
def dedupAux {α : Type} [DecidableEq α] (seen : List α) : List α → List α
  | [] => []
  | k :: rest => if k ∈ seen then dedupAux seen rest else k :: dedupAux (k :: seen) rest

/-- The distinct elements of a list, in first-occurrence order. -/
def dedupFirst {α : Type} [DecidableEq α] (l : List α) : List α :=
  dedupAux [] l

/-- Sum of a list of rationals through the reducible addition. -/
def qsum (l : List Rat) : Rat := l.foldr qadd (mkRat 0 1)

/-- One row of the summary tree, as analyze produces it from the
groupby aggregation: Category, Merchant, Count (group size), Inc and
Exp (group sums) and Total (sum of the per-row Bal column). -/
structure SumRow where
  category : String
  merchant : String
  count : Nat
  inc : Rat
  exp : Rat
  net : Rat
deriving DecidableEq, Repr

/-- The summary row of one (category, merchant) group. -/
def mkSumRow (d : List Rec) (k : String × String) : SumRow :=
  let rows := d.filter (fun r => recKey r = k)
  { category := k.1, merchant := k.2, count := rows.length
    inc := qsum (rows.map Rec.incAmt), exp := qsum (rows.map Rec.expAmt)
    net := qsum (rows.map (fun r => qsub r.incAmt r.expAmt)) }

/-- Summary table of analyze: one row per distinct (Expense Category,
Merchant Name) pair of the matched subset, modelling
d.groupby(['Expense Category', 'Merchant Name']).agg(...).  pandas
groupby emits groups in sorted key order; no claim depends on the
order of group rows, and the model uses first-occurrence order. -/
def summaryRows (d : List Rec) : List SumRow :=
  (dedupFirst (d.map recKey)).map (mkSumRow d)

/-- Grand totals of analyze (Total Records, Total Income, Total
Expense, Net Balance labels). -/
def grandTotals (d : List Rec) : Nat × Rat × Rat × Rat :=
  (d.length, qsum (d.map Rec.incAmt), qsum (d.map Rec.expAmt),
    qsub (qsum (d.map Rec.incAmt)) (qsum (d.map Rec.expAmt)))

/-- qsum agrees with the library sum. -/
theorem qsum_eq_sum (l : List Rat) : qsum l = l.sum := by
  induction l with
  | nil => simp [qsum]
  | cons x xs ih =>
    simp only [qsum, List.foldr_cons, List.sum_cons]
    rw [qadd_eq]
    rw [show List.foldr qadd (mkRat 0 1) xs = qsum xs from rfl, ih]

/-- Summing the per-row balances is the income sum minus the expense
sum. -/
theorem sum_bal (l : List Rec) :
    (l.map (fun r => qsub r.incAmt r.expAmt)).sum
      = (l.map Rec.incAmt).sum - (l.map Rec.expAmt).sum := by
  induction l with
  | nil => simp
  | cons x xs ih =>
    simp only [List.map_cons, List.sum_cons]
    rw [ih, qsub_eq]
    ring

/-- Membership in the deduplication. -/
theorem mem_dedupAux {α : Type} [DecidableEq α] {x : α} :
    ∀ (seen l : List α), x ∈ dedupAux seen l ↔ x ∈ l ∧ x ∉ seen := by
  intro seen l
  induction l generalizing seen with
  | nil => simp [dedupAux]
  | cons k rest ih =>
    simp only [dedupAux]
    split
    · rename_i hk
      rw [ih]
      constructor
      · rintro ⟨h1, h2⟩
        exact ⟨List.mem_cons_of_mem _ h1, h2⟩
      · rintro ⟨h1, h2⟩
        rcases List.mem_cons.mp h1 with rfl | h1
        · exact absurd hk h2
        · exact ⟨h1, h2⟩
    · rename_i hk
      simp only [List.mem_cons, ih]
      constructor
      · rintro (rfl | ⟨h1, h2⟩)
        · exact ⟨Or.inl rfl, hk⟩
        · simp only [List.mem_cons, not_or] at h2
          exact ⟨Or.inr h1, h2.2⟩
      · rintro ⟨h1 | h1, h2⟩
        · exact Or.inl h1
        · by_cases hx : x = k
          · exact Or.inl hx
          · exact Or.inr ⟨h1, by simp [List.mem_cons, hx, h2]⟩

/-- The deduplication has no duplicates. -/
theorem dedupAux_nodup {α : Type} [DecidableEq α] (l : List α) :
    ∀ seen : List α, (dedupAux seen l).Nodup := by
  induction l with
  | nil => intro seen; simp [dedupAux]
  | cons k rest ih =>
    intro seen
    simp only [dedupAux]
    split
    · exact ih seen
    · refine List.nodup_cons.mpr ⟨?_, ih (k :: seen)⟩
      intro hmem
      exact ((mem_dedupAux _ _).mp hmem).2 (List.mem_cons_self k seen)

/-- Membership in dedupFirst is membership in the original list. -/
theorem mem_dedupFirst {α : Type} [DecidableEq α] {x : α} {l : List α} :
    x ∈ dedupFirst l ↔ x ∈ l := by
  rw [dedupFirst, mem_dedupAux]
  simp

/-- The keys of the summary rows are the distinct keys of the input. -/
theorem summary_keys (d : List Rec) :
    (summaryRows d).map (fun g => (g.category, g.merchant)) = dedupFirst (d.map recKey) := by
  simp only [summaryRows, List.map_map]
  have h : ((fun g : SumRow => (g.category, g.merchant)) ∘ mkSumRow d) = id := by
    funext k
    rfl
  rw [h, List.map_id]

/-- The three records of the grouping example of the spec: categories
Food (expense 30), Food (expense 20) and Travel (expense 50), all with
income 0 and one shared merchant. -/
def exampleRows : List Rec :=
  [ { label := 0, origIdx := 0, reportName := "R", date := some ⟨2025, 12, 1⟩
      expAmt := 30, incAmt := 0, descr := "", category := "Food", merchant := "M", paid := "" },
    { label := 1, origIdx := 1, reportName := "R", date := some ⟨2025, 12, 2⟩
      expAmt := 20, incAmt := 0, descr := "", category := "Food", merchant := "M", paid := "" },
    { label := 2, origIdx := 2, reportName := "R", date := some ⟨2025, 12, 3⟩
      expAmt := 50, incAmt := 0, descr := "", category := "Travel", merchant := "M", paid := "" } ]

/-- The Food group row of the example. -/
def exFoodRow : SumRow := ⟨"Food", "M", 2, 0, 50, -50⟩

/-- C7 (confirmed): the aggregator produces exactly one group row per
distinct (expense_category, merchant_name) pair present in the input
(no duplicate keys, and the keys are exactly those occurring in the
input), each group row carries the count of its rows, the sum of
income amounts, the sum of expense amounts and net = sum(income) -
sum(expense); the grand totals are the count of all matched rows,
total income, total expense and net = total income - total expense;
and the spec example {Food:30, Food:20, Travel:50} with income 0
yields Food: count=2, exp=50; Travel: count=1, exp=50; grand total
exp=100. -/
theorem C7_aggregate_correct :
    (∀ d : List Rec, ((summaryRows d).map (fun g => (g.category, g.merchant))).Nodup)
    ∧ (∀ (d : List Rec) (k : String × String),
        k ∈ (summaryRows d).map (fun g => (g.category, g.merchant)) ↔ k ∈ d.map recKey)
    ∧ (∀ (d : List Rec), ∀ g ∈ summaryRows d,
        g.count = (d.filter (fun r => recKey r = (g.category, g.merchant))).length
        ∧ g.inc = ((d.filter (fun r => recKey r = (g.category, g.merchant))).map Rec.incAmt).sum
        ∧ g.exp = ((d.filter (fun r => recKey r = (g.category, g.merchant))).map Rec.expAmt).sum
        ∧ g.net = g.inc - g.exp)
    ∧ (∀ d : List Rec,
        grandTotals d = (d.length, (d.map Rec.incAmt).sum, (d.map Rec.expAmt).sum,
          (d.map Rec.incAmt).sum - (d.map Rec.expAmt).sum))
    ∧ summaryRows exampleRows
        = [⟨"Food", "M", 2, 0, 50, -50⟩, ⟨"Travel", "M", 1, 0, 50, -50⟩]
    ∧ grandTotals exampleRows = (3, 0, 100, -100) := by
  refine ⟨?_, ?_, ?_, ?_, ?_, ?_⟩
  · intro d
    rw [summary_keys]
    exact dedupAux_nodup _ _
  · intro d k
    rw [summary_keys]
    exact mem_dedupFirst
  · intro d g hg
    simp only [summaryRows, List.mem_map] at hg
    obtain ⟨k, _, rfl⟩ := hg
    refine ⟨rfl, ?_, ?_, ?_⟩
    · show qsum ((d.filter (fun r => recKey r = k)).map Rec.incAmt)
        = ((d.filter (fun r => recKey r = k)).map Rec.incAmt).sum
      rw [qsum_eq_sum]
    · show qsum ((d.filter (fun r => recKey r = k)).map Rec.expAmt)
        = ((d.filter (fun r => recKey r = k)).map Rec.expAmt).sum
      rw [qsum_eq_sum]
    · show qsum ((d.filter (fun r => recKey r = k)).map (fun r => qsub r.incAmt r.expAmt))
        = qsum ((d.filter (fun r => recKey r = k)).map Rec.incAmt)
          - qsum ((d.filter (fun r => recKey r = k)).map Rec.expAmt)
      rw [qsum_eq_sum, qsum_eq_sum, qsum_eq_sum]
      exact sum_bal _
  · intro d
    simp [grandTotals, qsub_eq, qsum_eq_sum]
  · decide
  · decide

/-- C7 (witness): the per-group conjunct instantiated at the example
rows and the Food group row. -/
theorem C7_aggregate_correct_witness :
    exFoodRow.count
        = (exampleRows.filter (fun r => recKey r = (exFoodRow.category, exFoodRow.merchant))).length
    ∧ exFoodRow.inc
        = ((exampleRows.filter (fun r => recKey r = (exFoodRow.category, exFoodRow.merchant))).map
            Rec.incAmt).sum
    ∧ exFoodRow.exp
        = ((exampleRows.filter (fun r => recKey r = (exFoodRow.category, exFoodRow.merchant))).map
            Rec.expAmt).sum
    ∧ exFoodRow.net = exFoodRow.inc - exFoodRow.exp :=
  C7_aggregate_correct.2.2.1 exampleRows exFoodRow (by decide)

/-! ## Filter Domain Calculator (ExpenseAnalyzer.update_combos)

update_combos reads the same filter variables as analyze (the
description entry is collected into the selection dictionary but no
branch of the narrowing loop handles it, so it never narrows).  It
narrows with exact equality per field, then rebuilds every dropdown
domain from the one narrowed subset; the caller prepends "All" and
sorts, which changes neither the set of values nor the claims below. -/

/-- The working subset of update_combos: records with a non-null date,
narrowed by every active selection with exact-equality matching, in
source order (report, year, month, category, merchant, paid). -/
def narrowSubset (df : List Rec) (fs : FilterSpec) : List Rec :=
  let d := df.filter (fun r => r.date.isSome)
  let d := filterIf (fs.report ≠ "All") (fun r => r.reportName = fs.report) d
  let d := filterOptA fs.year (fun y r => r.date.any (fun dt => dt.y = y)) d
  let d := filterOptA fs.month (fun m r => r.date.any (fun dt => dt.m = m)) d
  let d := filterIf (fs.category ≠ "All") (fun r => r.category = fs.category) d
  let d := filterIf (fs.merchant ≠ "All") (fun r => r.merchant = fs.merchant) d
  filterIf (fs.paid ≠ "All") (fun r => r.paid = fs.paid) d

/-- Decimal digit character. -/
def digitChar (n : Nat) : Char := Char.ofNat (48 + n)

/-- Two-digit zero-padded rendering of a month number, modelling the
format string of update_combos for the month values pandas produces
(always between 1 and 12). -/
def twoDigit (m : Nat) : String :=
  String.mk [digitChar (m / 10 % 10), digitChar (m % 10)]

/-- The month domain update_combos computes: the distinct months of
the narrowed subset's expense dates, rendered as two-digit strings
(the source takes unique month numbers, then formats each). -/
def monthDomain (df : List Rec) (fs : FilterSpec) : List String :=
  (dedupFirst ((narrowSubset df fs).filterMap (fun r => r.date.map (fun dt => dt.m)))).map twoDigit

/-- The two-record store of the cascading-domain example: one record
dated January 2024 and one dated February 2025. -/
def storeC8 : List Rec :=
  [ { label := 0, origIdx := 0, reportName := "R", date := some ⟨2024, 1, 10⟩
      expAmt := 5, incAmt := 0, descr := "", category := "A", merchant := "M", paid := "" },
    { label := 1, origIdx := 1, reportName := "R", date := some ⟨2025, 2, 5⟩
      expAmt := 7, incAmt := 0, descr := "", category := "B", merchant := "N", paid := "" } ]

/-- The selection Year = 2024, everything else inactive. -/
def selYear2024 : FilterSpec := { FilterSpec.all with year := some 2024 }

/-- C8 (confirmed): for every store and current selection, a string is
in the month domain computed by update_combos exactly when it is the
two-digit rendering of a month occurring among the expense dates of
the subset narrowed by all active selections; and on the example store
with records dated January 2024 and February 2025, selecting Year=2024
yields the month domain consisting of "01" only. -/
theorem C8_month_domain :
    (∀ (df : List Rec) (fs : FilterSpec) (s : String),
      s ∈ monthDomain df fs
        ↔ ∃ r ∈ narrowSubset df fs, ∃ dt : Date, r.date = some dt ∧ s = twoDigit dt.m)
    ∧ monthDomain storeC8 selYear2024 = ["01"] := by
  constructor
  · intro df fs s
    simp only [monthDomain, List.mem_map, mem_dedupFirst, List.mem_filterMap,
      Option.map_eq_some']
    constructor
    · rintro ⟨m, ⟨r, hr, dt, hdt, rfl⟩, rfl⟩
      exact ⟨r, hr, dt, hdt, rfl⟩
    · rintro ⟨r, hr, dt, hdt, rfl⟩
      exact ⟨dt.m, ⟨r, hr, dt, hdt, rfl⟩, rfl⟩
  · decide

/-- C8 (witness): the characterization applied at the example store,
the Year=2024 selection and the string "01". -/
theorem C8_month_domain_witness :
    ∃ r ∈ narrowSubset storeC8 selYear2024, ∃ dt : Date, r.date = some dt ∧ "01" = twoDigit dt.m :=
  (C8_month_domain.1 storeC8 selYear2024 "01").mp (by decide)

/-! ## Record store mutation (show_record_dialog.save and
delete_record) -/

/-- The fields a user enters in the add/edit dialog, after the
validation of save (date parsed with pd.to_datetime, amounts parsed
with float). -/
structure NewFields where
  date : Date
  descr : String
  category : String
  merchant : String
  paid : String
  incAmt : Rat
  expAmt : Rat
deriving DecidableEq, Repr

/-- The stable id save assigns to a new record:
self.df['original_index'].max() + 1 when the frame is nonempty,
else 0. -/
def newStableId (df : List Rec) : Nat :=
  if df = [] then 0 else (df.map Rec.origIdx).foldl max 0 + 1

/-- Relabelling of the index from a starting value. -/
def reindexFrom (n : Nat) : List Rec → List Rec
  | [] => []
  | r :: rest => { r with label := n } :: reindexFrom (n + 1) rest

/-- Index relabelling performed by pd.concat(..., ignore_index=True):
index labels become 0..n-1 while every other column is unchanged. -/
def reindex (df : List Rec) : List Rec := reindexFrom 0 df

/-- save in add mode: build the record (with Report Name set to
"Manual Entry"), give it the fresh original_index, append it, and
reset the index labels (ignore_index=True). -/
def addRecord (df : List Rec) (f : NewFields) : List Rec :=
  let newRec : Rec :=
    { label := 0, origIdx := newStableId df, reportName := "Manual Entry"
      date := some f.date, expAmt := f.expAmt, incAmt := f.incAmt
      descr := f.descr, category := f.category, merchant := f.merchant, paid := f.paid }
  reindex (df ++ [newRec])

/-- delete_record for one selected row: the displayed ID value (the
record's original_index) is looked up among the frame's index labels
(self.df.index); when some row carries that label it is dropped and
one deletion is reported, otherwise nothing changes and zero is
reported. -/
def deleteById (df : List Rec) (idv : Nat) : List Rec × Nat :=
  if idv ∈ df.map Rec.label then (df.filter (fun r => ¬ r.label = idv), 1)
  else (df, 0)

/-- Relabelling preserves the original_index column. -/
theorem reindexFrom_origIdx (l : List Rec) :
    ∀ n, (reindexFrom n l).map Rec.origIdx = l.map Rec.origIdx := by
  induction l with
  | nil => intro n; rfl
  | cons r rest ih =>
    intro n
    simp [reindexFrom, ih]

/-- The accumulator and every element bound the running maximum. -/
theorem le_foldl_max (l : List Nat) :
    ∀ a : Nat, a ≤ l.foldl max a ∧ ∀ x ∈ l, x ≤ l.foldl max a := by
  induction l with
  | nil => intro a; simp
  | cons y ys ih =>
    intro a
    refine ⟨le_trans (le_max_left a y) (ih (max a y)).1, ?_⟩
    intro x hx
    rcases List.mem_cons.mp hx with rfl | hx
    · exact le_trans (le_max_right a x) (ih (max a x)).1
    · exact (ih (max a y)).2 x hx

/-- A loaded record with stable id 0. -/
def recA3 : Rec :=
  { label := 0, origIdx := 0, reportName := "R", date := some ⟨2025, 12, 1⟩
    expAmt := 3, incAmt := 0, descr := "", category := "A", merchant := "M", paid := "" }

/-- A loaded record with stable id 1. -/
def recB3 : Rec :=
  { label := 1, origIdx := 1, reportName := "R", date := some ⟨2025, 12, 2⟩
    expAmt := 4, incAmt := 0, descr := "", category := "B", merchant := "N", paid := "" }

/-- Two already-loaded records with stable ids 0 and 1. -/
def recsC3 : List Rec := [recA3, recB3]

/-- Dialog fields of the first record added in the C3 scenario. -/
def fFirst : NewFields :=
  { date := ⟨2025, 12, 10⟩, descr := "first", category := "C", merchant := "O"
    paid := "", incAmt := 0, expAmt := 1 }

/-- Dialog fields of the second record added in the C3 scenario. -/
def fSecond : NewFields :=
  { date := ⟨2025, 12, 11⟩, descr := "second", category := "D", merchant := "P"
    paid := "", incAmt := 0, expAmt := 2 }

/-- C3 (counterexample): after a load of records 0 and 1, adding a
record assigns it stable_id 2; deleting that record and adding again
assigns stable_id 2 to the new, different record — a stable_id once
held by a (since-deleted) record is reused by a different record while
the store is loaded. -/
theorem C3_stable_id_reused :
    ((addRecord recsC3 fFirst).map Rec.origIdx = [0, 1, 2])
    ∧ ((deleteById (addRecord recsC3 fFirst) 2).1.map Rec.origIdx = [0, 1])
    ∧ ((addRecord (deleteById (addRecord recsC3 fFirst) 2).1 fSecond).map Rec.origIdx = [0, 1, 2])
    ∧ (∃ r ∈ addRecord recsC3 fFirst, r.origIdx = 2 ∧ r.descr = "first")
    ∧ (∃ r ∈ addRecord (deleteById (addRecord recsC3 fFirst) 2).1 fSecond,
        r.origIdx = 2 ∧ r.descr = "second") := by
  decide

/-- C3 (amended): each add assigns the new record a stable_id equal to
the maximum existing stable_id plus 1 (or 0 if the store is empty),
and this id is distinct from the stable_id of every live record; but a
stable_id held by a since-deleted record can be reused when that
record held the maximum id. -/
theorem C3_add_assigns_fresh_live_id (df : List Rec) (f : NewFields) :
    ((addRecord df f).map Rec.origIdx = df.map Rec.origIdx ++ [newStableId df])
    ∧ ∀ r ∈ df, r.origIdx ≠ newStableId df := by
  constructor
  · simp only [addRecord, reindex]
    rw [reindexFrom_origIdx]
    simp
  · intro r hr
    have hne : df ≠ [] := List.ne_nil_of_mem hr
    unfold newStableId
    rw [if_neg hne]
    have hle := (le_foldl_max (df.map Rec.origIdx) 0).2 r.origIdx
      (List.mem_map_of_mem _ hr)
    omega

/-- C3 (witness): the amended claim at the concrete two-record store:
the add appends stable_id 2 and the live record recA3 does not hold
it. -/
theorem C3_add_assigns_fresh_live_id_witness :
    ((addRecord recsC3 fFirst).map Rec.origIdx = recsC3.map Rec.origIdx ++ [newStableId recsC3])
    ∧ recA3.origIdx ≠ newStableId recsC3 :=
  ⟨(C3_add_assigns_fresh_live_id recsC3 fFirst).1,
    (C3_add_assigns_fresh_live_id recsC3 fFirst).2 recA3 (by decide)⟩

/-- Three already-loaded records with stable ids 0, 1 and 2. -/
def recsC9 : List Rec :=
  [ { label := 0, origIdx := 0, reportName := "R", date := some ⟨2025, 11, 1⟩
      expAmt := 3, incAmt := 0, descr := "", category := "A", merchant := "M", paid := "" },
    { label := 1, origIdx := 1, reportName := "R", date := some ⟨2025, 11, 2⟩
      expAmt := 4, incAmt := 0, descr := "", category := "B", merchant := "N", paid := "" },
    { label := 2, origIdx := 2, reportName := "R", date := some ⟨2025, 11, 3⟩
      expAmt := 5, incAmt := 0, descr := "", category := "C", merchant := "O", paid := "" } ]

/-- The store after deleting stable_id 1 from recsC9 and then adding a
record: the add resets the index labels to 0..2 while the surviving
original_index values are 0, 2, 3 — labels and stable ids diverge. -/
def dfC9 : List Rec := addRecord (deleteById recsC9 1).1 fFirst

/-- C9 (code bug): remove looks the displayed stable_id up among the
frame's positional index labels instead of the original_index column
(which the edit path uses).  On dfC9 (labels 0,1,2; stable ids 0,2,3):
remove(3) reports 0 deletions although the record with stable_id 3
exists, and remove(1) reports 1 deletion and removes the record with
stable_id 2 although no record has stable_id 1. -/
theorem C9_delete_uses_index_label :
    (dfC9.map Rec.label = [0, 1, 2] ∧ dfC9.map Rec.origIdx = [0, 2, 3])
    ∧ ((deleteById dfC9 3).2 = 0 ∧ ∃ r ∈ dfC9, r.origIdx = 3)
    ∧ ((deleteById dfC9 1).2 = 1 ∧ (∀ r ∈ dfC9, r.origIdx ≠ 1)
        ∧ (deleteById dfC9 1).1.map Rec.origIdx = [0, 3]) := by
  decide

/-! ## Application output state around analyze and export_csv -/

/-- Result of one analyze call: no data loaded, empty result message,
or a full refresh of the outputs. -/
inductive AnalyzeOutcome where
  | noData
  | empty
  | ok
deriving DecidableEq, Repr

/-- The pieces of application state analyze reads and writes:
the loaded frame, the stored filtered frame that export_csv writes,
the four summary total labels, and the two displayed tables. -/
structure AppState where
  df : Option (List Rec)
  filteredDf : Option (List (Rec × Rat))
  totals : Option (Nat × Rat × Rat × Rat)
  sumTable : List SumRow
  rawTable : List (Rec × Rat)
deriving DecidableEq, Repr

/-- analyze as a transformer of the output state: with no frame it
returns immediately; when the filtered subset is empty it shows the
"No records found." message and returns before touching filtered_df,
the totals or the tables; otherwise it stores the sorted, annotated
result and rebuilds every output. -/
def analyzeApp (st : AppState) (fs : FilterSpec) : AppState × AnalyzeOutcome :=
  match st.df with
  | none => (st, .noData)
  | some df =>
    let d := filteredRows df fs
    if d = [] then (st, .empty)
    else
      let rows := withBal d
      let st2 : AppState :=
        { st with
          filteredDf := some rows
          totals := some (grandTotals (sortDesc d))
          sumTable := summaryRows (sortDesc d)
          rawTable := rows }
      (st2, .ok)

/-- export_csv writes the stored filtered frame when one exists. -/
def exportRows (st : AppState) : Option (List (Rec × Rat)) := st.filteredDf

/-- C10 (confirmed): a query whose filters match zero records signals
the empty result and returns before updating any output state: the
stored filtered result, the summary totals and the displayed tables
are exactly as the preceding successful query left them, so a
subsequent export writes the previous query's rows. -/
theorem C10_empty_result_preserves_outputs (st : AppState) (fs : FilterSpec) (df : List Rec)
    (hdf : st.df = some df) (hempty : filteredRows df fs = []) :
    analyzeApp st fs = (st, AnalyzeOutcome.empty)
    ∧ exportRows (analyzeApp st fs).1 = exportRows st := by
  constructor
  · simp [analyzeApp, hdf, hempty]
  · simp [analyzeApp, hdf, hempty]

/-- Output state left by a previous successful query: the loaded frame
holds recJan, the stored filtered frame still holds the earlier
result. -/
def stC10 : AppState :=
  { df := some [recJan], filteredDf := some [(recJuly, -10)]
    totals := some (1, 0, 10, -10), sumTable := [], rawTable := [(recJuly, -10)] }

/-- A selection matching no record of the loaded frame. -/
def fsNoMatch : FilterSpec := { FilterSpec.all with category := "zzz" }

/-- C10 (witness): on the concrete state stC10 and the no-match
selection, analyze reports the empty result, leaves the state intact,
and a subsequent export still writes the previous rows. -/
theorem C10_empty_result_preserves_outputs_witness :
    (analyzeApp stC10 fsNoMatch = (stC10, AnalyzeOutcome.empty)
    ∧ exportRows (analyzeApp stC10 fsNoMatch).1 = exportRows stC10) :=
  C10_empty_result_preserves_outputs stC10 fsNoMatch [recJan] rfl (by decide)

/-! ## Load pipeline (ExpenseAnalyzer.load_file)

The file readers are external collaborators; a read is modelled as
either a failure (unreadable file or decode error: the read call
raises before self.df is assigned) or a raw frame: the set of columns
present, plus per-row cells already carrying the typed value pandas
delivers (a NaN cell is none; a date cell holds what
pd.to_datetime(..., errors='coerce') produces for it, so the
conversion step leaves date cells unchanged).  Everything after the
read is translated from load_file. -/

/-- One raw row of a read frame.  The cells of columns that are absent
from the frame are irrelevant (never read); origIdx is the
original_index column, absent until load_file assigns it. -/
structure RawRow where
  origIdx : Option Nat
  reportName : Option String
  date : Option Date
  expAmt : Option Rat
  descr : Option String
  category : Option String
  paid : Option String
  merchant : Option String
  incAmt : Option Rat
deriving DecidableEq, Repr

/-- A frame: which columns are present, and the rows.  The values of
the Total column are not modelled; it is dropped unread. -/
structure Frame where
  hasReport : Bool
  hasTotal : Bool
  hasDate : Bool
  hasExpAmt : Bool
  hasDescr : Bool
  hasCategory : Bool
  hasPaid : Bool
  hasMerchant : Bool
  hasIncAmt : Bool
  hasOrigIdx : Bool
  rows : List RawRow
deriving DecidableEq, Repr

/-- Outcome of a load: success, or an error reported to the user. -/
inductive LoadOutcome where
  | ok
  | error
deriving DecidableEq, Repr

/-- Assignment of the original_index column from the index labels of
the freshly read frame (0..n-1). -/
def setOrigFrom (n : Nat) : List RawRow → List RawRow
  | [] => []
  | r :: rest => { r with origIdx := some n } :: setOrigFrom (n + 1) rest

/-- self.df['original_index'] = self.df.index. -/
def addOrigIdx (f : Frame) : Frame :=
  { f with hasOrigIdx := true, rows := setOrigFrom 0 f.rows }

/-- Dropping the Total column when present. -/
def dropTotal (f : Frame) : Frame := { f with hasTotal := false }

/-- Creating an all-empty Paid Through column when absent. -/
def addPaidCol (f : Frame) : Frame :=
  { f with hasPaid := true, rows := f.rows.map (fun r => { r with paid := some "" }) }

/-- fillna("Unknown") on Merchant Name. -/
def fillMerchant (f : Frame) : Frame :=
  { f with rows := f.rows.map (fun r => { r with merchant := some (r.merchant.getD "Unknown") }) }

/-- fillna("Uncategorized") on Expense Category. -/
def fillCategory (f : Frame) : Frame :=
  { f with rows := f.rows.map (fun r => { r with category := some (r.category.getD "Uncategorized") }) }

/-- fillna("") on Paid Through. -/
def fillPaid (f : Frame) : Frame :=
  { f with rows := f.rows.map (fun r => { r with paid := some (r.paid.getD "") }) }

/-- pd.to_numeric(..., errors='coerce').fillna(0) on Expense Amount. -/
def coerceExp (f : Frame) : Frame :=
  { f with rows := f.rows.map (fun r => { r with expAmt := some (r.expAmt.getD (mkRat 0 1)) }) }

/-- pd.to_numeric(..., errors='coerce').fillna(0) on Income Amount. -/
def coerceInc (f : Frame) : Frame :=
  { f with rows := f.rows.map (fun r => { r with incAmt := some (r.incAmt.getD (mkRat 0 1)) }) }

/-- The state of self.df at the moment the Merchant Name access can
raise: original_index assigned, Total dropped, Paid Through ensured. -/
def partialNorm (f : Frame) : Frame :=
  let f1 := addOrigIdx f
  let f2 := if f1.hasTotal then dropTotal f1 else f1
  if f2.hasPaid then f2 else addPaidCol f2

/-- load_file as a transformer of the stored frame.  A read failure is
caught with self.df still holding the previous frame; once the read
succeeds, self.df is assigned the new frame, and a missing required
column raises a KeyError that the same handler reports — with the
partially-normalized new frame left in self.df. -/
def loadFile (store : Option Frame) (input : Option Frame) : Option Frame × LoadOutcome :=
  match input with
  | none => (store, .error)
  | some f0 =>
    let f3 := partialNorm f0
    if f3.hasMerchant then
      let f4 := fillMerchant f3
      if f4.hasCategory then
        let f5 := fillPaid (fillCategory f4)
        if f5.hasDate then
          if f5.hasExpAmt then
            let f6 := coerceExp f5
            if f6.hasIncAmt then (some (coerceInc f6), .ok) else (some f6, .error)
          else (some f5, .error)
        else (some f5, .error)
      else (some f4, .error)
    else (some f3, .error)

/-- A previously loaded, fully normalized one-row frame. -/
def frameOld : Frame :=
  { hasReport := true, hasTotal := false, hasDate := true, hasExpAmt := true
    hasDescr := true, hasCategory := true, hasPaid := true, hasMerchant := true
    hasIncAmt := true, hasOrigIdx := true
    rows := [ { origIdx := some 0, reportName := some "R", date := some ⟨2025, 12, 1⟩
                expAmt := some 3, descr := some "", category := some "A"
                paid := some "", merchant := some "M", incAmt := some 0 } ] }

/-- A readable input frame that lacks the Merchant Name column. -/
def frameNoMerchant : Frame :=
  { hasReport := true, hasTotal := true, hasDate := true, hasExpAmt := true
    hasDescr := true, hasCategory := true, hasPaid := true, hasMerchant := false
    hasIncAmt := true, hasOrigIdx := false
    rows := [ { origIdx := none, reportName := some "S", date := some ⟨2026, 1, 2⟩
                expAmt := some 9, descr := some "x", category := some "B"
                paid := some "c", merchant := none, incAmt := some 0 } ] }

/-- C2 (counterexample): a load whose input reads successfully but
lacks the required Merchant Name column signals the error, yet the
record store is not left as it was before the load: self.df already
holds the partially-normalized new frame. -/
theorem C2_failed_load_overwrites_store :
    (loadFile (some frameOld) (some frameNoMerchant)).2 = LoadOutcome.error
    ∧ (loadFile (some frameOld) (some frameNoMerchant)).1 ≠ some frameOld := by
  decide

/-- C2 (amended): if the read itself fails (file unreadable or decode
failure), load signals the error and the store is exactly as before;
but if the file reads and a required column such as Merchant Name is
missing, the error is signalled only after the store has been replaced
by the partially-normalized new frame — the load is not atomic across
post-read normalization. -/
theorem C2_load_error_effects (store : Option Frame) (f : Frame) :
    (loadFile store none = (store, LoadOutcome.error))
    ∧ (f.hasMerchant = false →
        loadFile store (some f) = (some (partialNorm f), LoadOutcome.error)) := by
  refine ⟨rfl, fun hm => ?_⟩
  have h3 : (partialNorm f).hasMerchant = false := by
    cases hT : f.hasTotal <;> cases hP : f.hasPaid <;>
      simp [partialNorm, addOrigIdx, dropTotal, addPaidCol, hT, hP, hm]
  simp [loadFile, h3]

/-- C2 (witness): both amended clauses at the concrete frames: a read
failure leaves frameOld in place; the merchant-less input replaces it
with the partially-normalized frame while the error is reported. -/
theorem C2_load_error_effects_witness :
    (loadFile (some frameOld) none = (some frameOld, LoadOutcome.error))
    ∧ loadFile (some frameOld) (some frameNoMerchant)
        = (some (partialNorm frameNoMerchant), LoadOutcome.error) :=
  ⟨(C2_load_error_effects (some frameOld) frameNoMerchant).1,
    (C2_load_error_effects (some frameOld) frameNoMerchant).2 rfl⟩

end TSL
